import Mathlib

/-!
Shallow embedding of `tools/ooanalyzer/radare2/ooa2r2.py`, a converter from
OOAnalyzer output JSON to a radare2 initialization script, together with a
verification of the specified behaviour.

Modelling conventions:
* JSON string values that the script only concatenates or prints are modelled
  as `String`; dictionary keys whose absence the script's `except KeyError`
  handlers observe are modelled as `Option` fields.
* Each `outfile.write(...)` call contributes one element to a `List String`;
  each `print(...)` call contributes one element to another list.
* Python exceptions are modelled by `PyErr`.  `exit()` called with no argument
  terminates the interpreter with status 0; an uncaught exception terminates
  it with status 1 after printing a traceback.
* Python dictionaries are modelled as insertion-ordered association lists,
  matching CPython semantics: assigning to an existing key keeps its position
  and replaces the value, a new key is appended at the end, and iteration
  follows that order.
-/

/-- The Python exceptions relevant to this script. -/
inductive PyErr where
  | keyError
  | indexError
  | typeError
  deriving DecidableEq

/-- Python percent-formatting restricted to `%s` conversions, the only form
appearing in this script.  Walks the format string, substituting one argument
per `%s`.  Returns `none` exactly when the number of `%s` conversions does not
match the number of supplied arguments, in which case Python raises
`TypeError` ("not all arguments converted during string formatting" when
arguments are left over, "not enough arguments for format string" when the
format string wants more). -/
def pySubst : List Char → List String → Option (List Char)
  | [], as => if as.isEmpty then some [] else none
  | '%' :: 's' :: rest, as =>
    match as with
    | a :: as1 => (pySubst rest as1).map (fun t => a.data ++ t)
    | [] => none
  | c :: rest, as => (pySubst rest as).map (fun t => c :: t)

/-- `fmt % args` as an `Except`: formatting mismatches raise `TypeError`. -/
def pyFmt (fmt : String) (args : List String) : Except PyErr String :=
  match pySubst fmt.data args with
  | some cs => .ok (String.mk cs)
  | none => .error .typeError

/-- Python `str.split(sep)` for a one-character separator: splits at every
occurrence, keeping empty segments, and returns `[""]` on the empty string. -/
def pySplitOn (sep : Char) : List Char → List (List Char)
  | [] => [[]]
  | c :: rest =>
    if c = sep then
      [] :: pySplitOn sep rest
    else
      match pySplitOn sep rest with
      | [] => [[c]]
      | s :: ss => (c :: s) :: ss

/-- Python's substring test `needle in haystack` on character lists. -/
def listContainsSeq (p : List Char) : List Char → Bool
  | [] => p.isEmpty
  | c :: rest => p.isPrefixOf (c :: rest) || listContainsSeq p rest

/-- Python's substring test `needle in haystack` on strings. -/
def strContains (needle s : String) : Bool :=
  listContainsSeq needle.data s.data

/-- `s.startswith(pre)`, used only to classify emitted command lines. -/
def strStartsWith (pre s : String) : Bool :=
  pre.data.isPrefixOf s.data

/-- Assignment `d[k] = v` on a Python dict modelled as an insertion-ordered
association list: an existing key keeps its position and gets the new value,
a new key is appended at the end. -/
def pyDictInsert (k : String) (v : α) : List (String × α) → List (String × α)
  | [] => [(k, v)]
  | (k1, v1) :: rest =>
    if k1 = k then (k1, v) :: rest else (k1, v1) :: pyDictInsert k v rest

/-- Lookup in the association-list model of a Python dict. -/
def dictLookup (k : String) : List (String × α) → Option α
  | [] => none
  | (k1, v) :: rest => if k1 = k then some v else dictLookup k rest

/-- A sequence of dict assignments, performed left to right. -/
def dictInsertAll (d : List (String × α)) (ps : List (String × α)) :
    List (String × α) :=
  ps.foldl (fun acc p => pyDictInsert p.1 p.2 acc) d

/-- `FLAG_PREFIX="ooa."`, the fixed namespace marker. -/
def FLAG_PREFIX : String := "ooa."

/-- `format_name`: keep exactly the characters of the input that are
alphanumeric or an underscore, in order, and prepend the flag prefix.
Python's `str.isalnum` is modelled by `Char.isAlphanum`; the two agree on
ASCII input, which is all this converter's names use.  The function is total:
no error conditions. -/
def format_name (ip_str : String) : String :=
  FLAG_PREFIX ++ String.mk (ip_str.data.filter (fun e => e.isAlphanum || e == '_'))

/-! ## Data model of the input JSON document

Fields the script reads unconditionally (outside any `try`) are modelled as
present; fields whose absence is observed by an exception handler are
`Option`.  JSON `null` values and non-string scalars are outside the model:
the script would raise `TypeError` on them, which no claim exercises. -/

/-- One element of a structure's `Methods` list (`{ea, name, type}`). -/
structure MEntry where
  ea : String
  name : String
  type : String
  deriving DecidableEq

/-- One element of a vftable's `entries` list (`{ea, name, type, offset}`).
The script reads `name`, `type`, `offset` and `ea` inside a `try` whose
`except KeyError` abandons the rest of the table, so all four are `Option`. -/
structure VEntry where
  ea : Option String
  name : Option String
  type : Option String
  offset : Option String
  deriving DecidableEq

/-- One element of a structure's `Vftables` list (`{ea, vfptr, entries}`). -/
structure Vftable where
  ea : Option String
  vfptr : Option String
  entries : Option (List VEntry)
  deriving DecidableEq

/-- One element of the document's `Structures` list. -/
structure OOStruct where
  Name : String
  DemangledName : Option String
  Methods : List MEntry
  Vftables : Option (List Vftable)
  deriving DecidableEq

/-- One element of a usage group's `Members` list; the JSON key `class` is a
reserved word in Lean, so the field is called `cls`. -/
structure UsageRec where
  ea : String
  cls : String
  deriving DecidableEq

/-- One element of the document's `Usages` list. -/
structure UsageGroup where
  Members : Option (List UsageRec)
  deriving DecidableEq

/-- The top-level JSON document. -/
structure Document where
  Structures : Option (List OOStruct)
  Usages : Option (List UsageGroup)
  deriving DecidableEq

/-- The argparse result. -/
structure Args where
  json_file : String
  out_file : String
  is_import : Bool
  is_demangled_class_names : Bool
  deriving DecidableEq

/-! ## The conversion -/

/-- First population pass over `method_list`:
`method_list["0x"+str(met['ea'])] = [format_name(str(met["name"])), str(met['type'])]`
for each method, in list order. -/
def methodPairs (mets : List MEntry) : List (String × (String × String)) :=
  mets.map (fun m => ("0x" ++ m.ea, (format_name m.name, m.type)))

/-- The inner entries loop of `ooa2r2_set_classes`: each entry contributes
`("0x"+ea, [format_name(name), "virt_"+type+"_"+offset])`.  The loop runs
inside a `try` whose `except KeyError` does nothing, so the first entry with
a missing field silently ends the whole table's entry processing: entries
after it are dropped as well. -/
def processEntries : List VEntry → List (String × (String × String))
  | [] => []
  | e :: rest =>
    match e.name, e.type, e.offset, e.ea with
    | some nm, some ty, some off, some ea =>
      ("0x" ++ ea, (format_name nm, "virt_" ++ ty ++ "_" ++ off)) :: processEntries rest
    | _, _, _, _ => []

/-- One vftable's contribution to `method_list`: a missing `entries` key
raises `KeyError` inside the same inner `try`, so the table contributes
nothing. -/
def processVftMethods (v : Vftable) : List (String × (String × String)) :=
  match v.entries with
  | none => []
  | some es => processEntries es

/-- All vftable-entry assignments of a structure, in iteration order. -/
def entryPairs (st : OOStruct) : List (String × (String × String)) :=
  match st.Vftables with
  | none => []
  | some vfts => (vfts.map processVftMethods).flatten

/-- `method_list` after both population passes: methods first, then vftable
entries, each pass assigning into the same dict (so a vftable entry sharing
an address with a method overwrites it).  A missing `Vftables` key raises
`KeyError` caught by the outer handler, leaving only the method pass. -/
def buildMethodList (st : OOStruct) : List (String × (String × String)) :=
  dictInsertAll (dictInsertAll [] (methodPairs st.Methods)) (entryPairs st)

/-- The `vftable_list` population loop
(`vftable_list["0x"+vir['ea']] = vir['vfptr']`): a table missing `ea` or
`vfptr` raises `KeyError`, caught by the outer handler, which abandons the
rest of the loop but keeps assignments already made. -/
def buildVftList : List Vftable → List (String × String) → List (String × String)
  | [], d => d
  | v :: rest, d =>
    match v.vfptr, v.ea with
    | some p, some ea => buildVftList rest (pyDictInsert ("0x" ++ ea) p d)
    | _, _ => d

/-- `vftable_list` for one structure; a missing `Vftables` key leaves it
empty. -/
def buildVftableDict (st : OOStruct) : List (String × String) :=
  match st.Vftables with
  | none => []
  | some vfts => buildVftList vfts []

/-- The class-name selection at the top of the per-structure loop:
`name = format_name(st['Name'])`, then under `-dcn`
`if len(st['DemangledName']) != 0: name = format_name(st['DemangledName'])`.
Accessing a missing `DemangledName` key raises `KeyError`, which no local
handler catches. -/
def pyClassName (dcn : Bool) (st : OOStruct) : Except PyErr String :=
  let name := format_name st.Name
  if dcn then
    match st.DemangledName with
    | none => .error .keyError
    | some d => if d.length ≠ 0 then .ok (format_name d) else .ok name
  else
    .ok name

/-- One `acm` line of `ooa2r2_export_class`: a type containing the substring
`"virt"` takes the virtual branch, whose offset suffix is
`met_type.split('_')[2]` — an `IndexError` if the split has at most two
segments. -/
def renderAcm (name met fname ty : String) : Except PyErr String :=
  if strContains "virt" ty then
    match (pySplitOn '_' ty.data).get? 2 with
    | some seg =>
      .ok ("acm " ++ name ++ " " ++ fname ++ " " ++ met ++ " " ++ String.mk seg ++ "\n")
    | none => .error .indexError
  else
    .ok ("acm " ++ name ++ " " ++ fname ++ " " ++ met ++ "\n")

/-- The method-emission loop of `ooa2r2_export_class`: lines written before a
raising iteration are kept, and the raised exception propagates. -/
def exportMethodLines (name : String) :
    List (String × (String × String)) → List String × Option PyErr
  | [] => ([], none)
  | (met, fv) :: rest =>
    match renderAcm name met fv.1 fv.2 with
    | .ok line =>
      let r := exportMethodLines name rest
      (line :: r.1, r.2)
    | .error e => ([], some e)

/-- `ooa2r2_export_class`: a blank line, the `ac` class-creation line, one
`acv` line per `vftable_list` item, then one `acm` line per `method_list`
item (the last loop may raise `IndexError`, keeping earlier writes). -/
def ooa2r2_export_class (name : String)
    (method_list : List (String × (String × String)))
    (vftable_list : List (String × String)) : List String × Option PyErr :=
  let r := exportMethodLines name method_list
  ("\n" :: ("ac " ++ name ++ "\n") ::
      (vftable_list.map (fun kv => "acv " ++ name ++ " " ++ kv.1 ++ " " ++ kv.2 ++ "\n"))
      ++ r.1,
    r.2)

/-- `ooa2r2_set_classes`: the per-structure loop.  An exception raised while
processing one structure keeps the writes already made and propagates (there
is no handler inside the loop). -/
def ooa2r2_set_classes (dcn : Bool) : List OOStruct → List String × Option PyErr
  | [] => ([], none)
  | st :: rest =>
    match pyClassName dcn st with
    | .error e => ([], some e)
    | .ok name =>
      let r := ooa2r2_export_class name (buildMethodList st) (buildVftableDict st)
      match r.2 with
      | some e => (r.1, some e)
      | none =>
        let r2 := ooa2r2_set_classes dcn rest
        (r.1 ++ r2.1, r2.2)

/-- `ooa2r2_set_usage` followed by `ooa2r2_export_usage`: build the
`use_info` dict and emit a blank line plus one `CCu` comment per item. -/
def ooa2r2_set_usage (members : List UsageRec) : List String :=
  let use_info := dictInsertAll [] (members.map (fun u => ("0x" ++ u.ea, format_name u.cls)))
  "\n" :: use_info.map (fun kv => "CCu Member usage: " ++ kv.2 ++ " @" ++ kv.1 ++ "\n")

/-- The fixed header comment block written by `write_header` (one
`outfile.write` call, no trailing newline). -/
def headerText : String :=
  "########################################################\n#\n# This file was generated by the ooa2r2.py script.\n# Source: https://github.com/madaari/pharos\n#\n########################################################"

/-- How one run of the process ends. -/
inductive Outcome where
  | exited (code : Nat)
  | finished
  | crashed (e : PyErr)
  deriving DecidableEq

/-- Observable result of a run: the output file's write calls (`none` when
the file was never created), the console prints, and how the process ended.
`finished` means `main` returned normally, which exits the interpreter with
status 0; `exited c` is an explicit `exit()`; `crashed e` is an uncaught
exception, which exits with status 1. -/
structure RunResult where
  outFile : Option (List String)
  prints : List String
  outcome : Outcome
  deriving DecidableEq

/-- The process exit status determined by an outcome: `exit()` with no
argument exits with status 0, a normal return exits with status 0, and an
uncaught exception makes the interpreter exit with status 1. -/
def exitStatus : Outcome → Nat
  | .exited c => c
  | .finished => 0
  | .crashed _ => 1

/-- Tail of `json_parse` after the two emission steps: the completion
message and the follow-up suggestion. -/
def finishRun (args : Args) (ws ps : List String) : RunResult :=
  { outFile := some ws
    prints := ps ++ ["[+] Conversion done.", "[!] Execute: r2 -i " ++ args.out_file ++ " [program]"]
    outcome := .finished }

/-- The usage step of `json_parse`:
`try: ooa2r2_set_usage(args, inp_file['Usages'][0]['Members']) except KeyError as e: print("No Usage info found! "%e)`.
A missing `Usages` or `Members` key raises `KeyError`; the handler's print
applies `%`-formatting to a format string with no conversion specifier, and
an empty `Usages` list raises `IndexError`, which no handler catches. -/
def usageStep (args : Args) (doc : Document) (ws ps : List String) : RunResult :=
  if args.is_import then
    match doc.Usages with
    | none =>
      match pyFmt "No Usage info found! " ["\x27Usages\x27"] with
      | .ok m => finishRun args ws (ps ++ [m])
      | .error e => { outFile := some ws, prints := ps, outcome := .crashed e }
    | some [] => { outFile := some ws, prints := ps, outcome := .crashed .indexError }
    | some (g :: _) =>
      match g.Members with
      | none =>
        match pyFmt "No Usage info found! " ["\x27Members\x27"] with
        | .ok m => finishRun args ws (ps ++ [m])
        | .error e => { outFile := some ws, prints := ps, outcome := .crashed e }
      | some mems => finishRun args (ws ++ ooa2r2_set_usage mems) ps
  else
    finishRun args ws ps

/-- `json_parse`: open the output file (printing an error and calling
`exit()` when that fails), write the header, print the start message, run the
structure step (`except KeyError` prints `"No Structures found! "%e`, again a
specifier-free format string applied to one argument), then the usage step.
A `KeyError` escaping `ooa2r2_set_classes` is caught here; an `IndexError`
escaping it is not. -/
def json_parse (args : Args) (outWritable : Bool) (doc : Document) : RunResult :=
  if outWritable then
    let ws := [headerText]
    let ps := ["[+] Starting conversion from \x27" ++ args.json_file ++ "\x27 to \x27" ++ args.out_file ++ "\x27"]
    match doc.Structures with
    | none =>
      match pyFmt "No Structures found! " ["\x27Structures\x27"] with
      | .ok m => usageStep args doc ws (ps ++ [m])
      | .error e => { outFile := some ws, prints := ps, outcome := .crashed e }
    | some structs =>
      let r := ooa2r2_set_classes args.is_demangled_class_names structs
      match r.2 with
      | some PyErr.keyError =>
        match pyFmt "No Structures found! " ["KeyError"] with
        | .ok m => usageStep args doc (ws ++ r.1) (ps ++ [m])
        | .error e => { outFile := some (ws ++ r.1), prints := ps, outcome := .crashed e }
      | some e => { outFile := some (ws ++ r.1), prints := ps, outcome := .crashed e }
      | none => usageStep args doc (ws ++ r.1) ps
  else
    { outFile := none, prints := ["Error making the output file"], outcome := .exited 0 }

/-- The state of the input file as `main` sees it:
`json.loads(open(args.json_file).read())` raises `OSError` when the file
cannot be opened or read and `ValueError` when its contents are not valid
JSON; both happen before `json_parse` is called. -/
inductive JsonInput where
  | unreadable (msg : String)
  | invalid (msg : String)
  | valid (doc : Document)
  deriving DecidableEq

/-- The script's `main` (the name `main` is reserved in Lean): parse
arguments, read and parse the input JSON, then call `json_parse`.
`ValueError` and `OSError` are reported and answered with `exit()`; any other
exception escaping `json_parse` is uncaught. -/
def ooa2r2_main (args : Args) (inp : JsonInput) (outWritable : Bool) : RunResult :=
  if args.json_file = "" then
    { outFile := none, prints := ["Error parsing input JSON file"], outcome := .exited 0 }
  else
    match inp with
    | .unreadable msg =>
      { outFile := none, prints := ["Error opening input file: " ++ msg], outcome := .exited 0 }
    | .invalid msg =>
      { outFile := none, prints := ["Invalid input json file: " ++ msg], outcome := .exited 0 }
    | .valid doc => json_parse args outWritable doc

/-! ## Dictionary lemmas -/

theorem dictLookup_pyDictInsert_self (k : String) (v : α) (d : List (String × α)) :
    dictLookup k (pyDictInsert k v d) = some v := by
  induction d with
  | nil => simp [pyDictInsert, dictLookup]
  | cons p rest ih =>
    obtain ⟨k1, v1⟩ := p
    by_cases h : k1 = k
    · simp [pyDictInsert, dictLookup, h]
    · simp [pyDictInsert, dictLookup, h, ih]

theorem dictLookup_pyDictInsert_ne (q k : String) (v : α) (d : List (String × α))
    (h : q ≠ k) : dictLookup q (pyDictInsert k v d) = dictLookup q d := by
  induction d with
  | nil =>
    have hne : ¬k = q := fun hk => h hk.symm
    simp [pyDictInsert, dictLookup, hne]
  | cons p rest ih =>
    obtain ⟨k1, v1⟩ := p
    by_cases h1 : k1 = k
    · subst h1
      have hne : ¬k1 = q := fun hk => h hk.symm
      simp [pyDictInsert, dictLookup, hne]
    · simp [pyDictInsert, dictLookup, h1, ih]

theorem dictInsertAll_nil (d : List (String × α)) : dictInsertAll d [] = d := rfl

theorem dictInsertAll_cons (d : List (String × α)) (p : String × α) (ps : List (String × α)) :
    dictInsertAll d (p :: ps) = dictInsertAll (pyDictInsert p.1 p.2 d) ps := rfl

theorem dictInsertAll_append (d : List (String × α)) (ps qs : List (String × α)) :
    dictInsertAll d (ps ++ qs) = dictInsertAll (dictInsertAll d ps) qs := by
  simp [dictInsertAll, List.foldl_append]

theorem dictLookup_dictInsertAll_of_not_mem (k : String) (d ps : List (String × α))
    (h : k ∉ ps.map Prod.fst) : dictLookup k (dictInsertAll d ps) = dictLookup k d := by
  induction ps generalizing d with
  | nil => rfl
  | cons p ps ih =>
    simp only [List.map_cons, List.mem_cons, not_or] at h
    rw [dictInsertAll_cons, ih _ h.2, dictLookup_pyDictInsert_ne _ _ _ _ h.1]

theorem keys_pyDictInsert (k : String) (v : α) (d : List (String × α)) :
    (pyDictInsert k v d).map Prod.fst =
      if k ∈ d.map Prod.fst then d.map Prod.fst else d.map Prod.fst ++ [k] := by
  induction d with
  | nil => simp [pyDictInsert]
  | cons p rest ih =>
    obtain ⟨k1, v1⟩ := p
    by_cases h : k1 = k
    · subst h
      simp [pyDictInsert]
    · have hne : ¬k = k1 := fun hk => h hk.symm
      simp only [pyDictInsert, if_neg h, List.map_cons, ih, List.mem_cons, hne, false_or]
      by_cases h2 : k ∈ rest.map Prod.fst
      · simp [h2]
      · simp [h2]

theorem nodup_keys_pyDictInsert (k : String) (v : α) (d : List (String × α))
    (h : (d.map Prod.fst).Nodup) : ((pyDictInsert k v d).map Prod.fst).Nodup := by
  rw [keys_pyDictInsert]
  by_cases h2 : k ∈ d.map Prod.fst
  · simpa [h2] using h
  · simp only [h2, if_false]
    exact List.Nodup.append h (List.nodup_singleton k) (by simp [List.disjoint_left, h2])

theorem nodup_keys_dictInsertAll (d ps : List (String × α))
    (h : (d.map Prod.fst).Nodup) : ((dictInsertAll d ps).map Prod.fst).Nodup := by
  induction ps generalizing d with
  | nil => exact h
  | cons p ps ih =>
    rw [dictInsertAll_cons]
    exact ih _ (nodup_keys_pyDictInsert _ _ _ h)

theorem pyDictInsert_of_not_mem (k : String) (v : α) (d : List (String × α))
    (h : k ∉ d.map Prod.fst) : pyDictInsert k v d = d ++ [(k, v)] := by
  induction d with
  | nil => rfl
  | cons p rest ih =>
    obtain ⟨k1, v1⟩ := p
    simp only [List.map_cons, List.mem_cons, not_or] at h
    have hne : ¬k1 = k := fun hk => h.1 hk.symm
    simp [pyDictInsert, hne, ih h.2]

theorem dictInsertAll_eq_append (d ps : List (String × α))
    (h : ((d ++ ps).map Prod.fst).Nodup) : dictInsertAll d ps = d ++ ps := by
  induction ps generalizing d with
  | nil => simp [dictInsertAll]
  | cons p ps ih =>
    obtain ⟨k, v⟩ := p
    simp only [List.map_append, List.map_cons] at h
    have hk : k ∉ d.map Prod.fst := by
      intro hmem
      exact (List.nodup_append.1 h).2.2 hmem (List.mem_cons_self _ _)
    rw [dictInsertAll_cons, pyDictInsert_of_not_mem _ _ _ hk, ih]
    · simp
    · simpa [List.append_assoc] using h

/-! ## Lemmas about the split and substring helpers -/

theorem pySplitOn_of_not_mem (sep : Char) (l : List Char) (h : sep ∉ l) :
    pySplitOn sep l = [l] := by
  induction l with
  | nil => rfl
  | cons c rest ih =>
    simp only [List.mem_cons, not_or] at h
    have hne : ¬c = sep := fun hc => h.1 hc.symm
    simp [pySplitOn, hne, ih h.2]

theorem pySplitOn_append (sep : Char) (l rest : List Char) (h : sep ∉ l) :
    pySplitOn sep (l ++ sep :: rest) = l :: pySplitOn sep rest := by
  induction l with
  | nil => simp [pySplitOn]
  | cons c l ih =>
    simp only [List.mem_cons, not_or] at h
    have hne : ¬c = sep := fun hc => h.1 hc.symm
    simp [pySplitOn, hne, ih h.2]

/-! ## Lemmas about rendering and emission -/

theorem strContains_virt_tag (ty off : String) :
    strContains "virt" ("virt_" ++ ty ++ "_" ++ off) = true := rfl

theorem data_virt_tag (ty off : String) :
    ("virt_" ++ ty ++ "_" ++ off).data
      = "virt".data ++ '_' :: (ty.data ++ '_' :: off.data) := by
  simp [String.data_append, List.append_assoc]

theorem pySplitOn_virt_tag (ty off : String)
    (hty : '_' ∉ ty.data) (hoff : '_' ∉ off.data) :
    pySplitOn '_' ("virt_" ++ ty ++ "_" ++ off).data
      = ["virt".data, ty.data, off.data] := by
  rw [data_virt_tag, pySplitOn_append _ _ _ (by decide), pySplitOn_append _ _ _ hty,
    pySplitOn_of_not_mem _ _ hoff]

theorem renderAcm_virt (name met fname ty off : String)
    (hty : '_' ∉ ty.data) (hoff : '_' ∉ off.data) :
    renderAcm name met fname ("virt_" ++ ty ++ "_" ++ off) =
      .ok ("acm " ++ name ++ " " ++ fname ++ " " ++ met ++ " " ++ off ++ "\n") := by
  unfold renderAcm
  rw [strContains_virt_tag, pySplitOn_virt_tag ty off hty hoff]
  rfl

theorem renderAcm_plain (name met fname ty : String)
    (h : strContains "virt" ty = false) :
    renderAcm name met fname ty =
      .ok ("acm " ++ name ++ " " ++ fname ++ " " ++ met ++ "\n") := by
  simp [renderAcm, h]

theorem exportMethodLines_plain (name : String) (mets : List MEntry)
    (h : ∀ m ∈ mets, strContains "virt" m.type = false) :
    exportMethodLines name (methodPairs mets) =
      (mets.map (fun m =>
        "acm " ++ name ++ " " ++ format_name m.name ++ " " ++ ("0x" ++ m.ea) ++ "\n"),
        none) := by
  induction mets with
  | nil => rfl
  | cons m mets ih =>
    have hm := h m (List.mem_cons_self _ _)
    have hrest : ∀ x ∈ mets, strContains "virt" x.type = false :=
      fun x hx => h x (List.mem_cons_of_mem _ hx)
    rw [show methodPairs (m :: mets)
        = ("0x" ++ m.ea, (format_name m.name, m.type)) :: methodPairs mets from rfl]
    simp [exportMethodLines, renderAcm_plain _ _ _ _ hm, ih hrest]

/-! ## Line-classification facts (used to count emitted commands) -/

theorem strStartsWith_ac_of_ac (n : String) :
    strStartsWith "ac " ("ac " ++ n ++ "\n") = true := by
  simp [strStartsWith, String.data_append, List.isPrefixOf]

theorem strStartsWith_acm_of_ac (n : String) :
    strStartsWith "acm " ("ac " ++ n ++ "\n") = false := rfl

theorem strStartsWith_acv_of_ac (n : String) :
    strStartsWith "acv " ("ac " ++ n ++ "\n") = false := rfl

theorem strStartsWith_ac_of_acm (a b c : String) :
    strStartsWith "ac " ("acm " ++ a ++ " " ++ b ++ " " ++ c ++ "\n") = false := rfl

theorem strStartsWith_acm_of_acm (a b c : String) :
    strStartsWith "acm " ("acm " ++ a ++ " " ++ b ++ " " ++ c ++ "\n") = true := by
  simp [strStartsWith, String.data_append, List.isPrefixOf]

theorem strStartsWith_acv_of_acm (a b c : String) :
    strStartsWith "acv " ("acm " ++ a ++ " " ++ b ++ " " ++ c ++ "\n") = false := rfl

theorem strStartsWith_ac_of_blank : strStartsWith "ac " "\n" = false := rfl

theorem strStartsWith_acm_of_blank : strStartsWith "acm " "\n" = false := rfl

theorem strStartsWith_acv_of_blank : strStartsWith "acv " "\n" = false := rfl

/-! ## Lemmas about vftable-entry processing -/

theorem processEntries_append_of_complete (es1 es2 : List VEntry)
    (h : ∀ x ∈ es1, x.name.isSome ∧ x.type.isSome ∧ x.offset.isSome ∧ x.ea.isSome) :
    processEntries (es1 ++ es2) = processEntries es1 ++ processEntries es2 := by
  induction es1 with
  | nil => simp [processEntries]
  | cons e es ih =>
    obtain ⟨hn, ht, ho, he⟩ := h e (List.mem_cons_self _ _)
    obtain ⟨nm, hnm⟩ := Option.isSome_iff_exists.1 hn
    obtain ⟨ty, hty⟩ := Option.isSome_iff_exists.1 ht
    obtain ⟨off, hoff⟩ := Option.isSome_iff_exists.1 ho
    obtain ⟨ea, hea⟩ := Option.isSome_iff_exists.1 he
    have hrest : ∀ x ∈ es, x.name.isSome ∧ x.type.isSome ∧ x.offset.isSome ∧ x.ea.isSome :=
      fun x hx => h x (List.mem_cons_of_mem _ hx)
    simp [processEntries, hnm, hty, hoff, hea, ih hrest]

theorem processEntries_cons_of_offset_none (e : VEntry) (rest : List VEntry)
    (he : e.offset = none) : processEntries (e :: rest) = [] := by
  cases hn : e.name <;> cases ht : e.type <;> cases hea : e.ea <;>
    simp [processEntries, hn, ht, hea, he]

/-! ## Claims -/

/-- C5 counterexample: the claim says the surviving attachment command for a
dual-listed address carries the virtual-table entry's offset suffix.  The
suffix actually emitted is `met_type.split('_')[2]`: for an entry with type
`a_b` and offset `7` the tag is `virt_a_b_7`, whose third `_`-segment is `b`,
so the command reads `acm ooa.A ooa.vm 0x10 b` — a fragment of the type —
and no command carrying the entry's offset `7` is emitted, refuting the
offset-suffix part of the claim (the overwrite itself does happen: the
surviving name is the entry's `ooa.vm`, not the method's `ooa.m`). -/
theorem C5_underscore_offset_counterexample :
    ooa2r2_set_classes false
        [⟨"A", none, [⟨"10", "m", "meth"⟩],
          some [⟨some "20", some "vp",
            some [⟨some "10", some "vm", some "a_b", some "7"⟩]⟩]⟩]
      = (["\n", "ac ooa.A\n", "acv ooa.A 0x20 vp\n", "acm ooa.A ooa.vm 0x10 b\n"], none)
    ∧ "acm ooa.A ooa.vm 0x10 7\n" ∉ (ooa2r2_set_classes false
        [⟨"A", none, [⟨"10", "m", "meth"⟩],
          some [⟨some "20", some "vp",
            some [⟨some "10", some "vm", some "a_b", some "7"⟩]⟩]⟩]).1 := by
  decide

/-- C5 (amended): for every structure and every method address that appears
both in the structure's own `Methods` list and in one of its virtual-table
`entries` lists (formalised: the address occurs among the method pairs, and
the vftable-entry pass contains an assignment of a virtual-tagged value to
that address with no later assignment to the same address), the single
surviving `method_list` binding for that address is the virtual-table
entry's value — sanitized entry name and `virt_<type>_<offset>` tag — not
the plain method entry's (last-write-wins), and `method_list` binds each
address exactly once, so exactly one attachment command is emitted per
address.  The rendered command's suffix is segment 2 of the tag split on
underscores, which equals the entry's declared offset exactly when neither
the entry's type nor its offset contains an underscore (the hypotheses
below); otherwise the command carries a fragment of the type or offset, as
the counterexample shows. -/
theorem C5_vftable_entry_overwrites
    (st : OOStruct) (addr fname ty off : String)
    (l1 l2 : List (String × (String × String)))
    (_hmem : addr ∈ (methodPairs st.Methods).map Prod.fst)
    (hsplit : entryPairs st = l1 ++ (addr, (fname, "virt_" ++ ty ++ "_" ++ off)) :: l2)
    (hlast : addr ∉ l2.map Prod.fst)
    (hty : '_' ∉ ty.data) (hoff : '_' ∉ off.data) :
    dictLookup addr (buildMethodList st) = some (fname, "virt_" ++ ty ++ "_" ++ off)
    ∧ (∀ name, renderAcm name addr fname ("virt_" ++ ty ++ "_" ++ off) =
        .ok ("acm " ++ name ++ " " ++ fname ++ " " ++ addr ++ " " ++ off ++ "\n"))
    ∧ ((buildMethodList st).map Prod.fst).Nodup := by
  refine ⟨?_, fun name => renderAcm_virt name addr fname ty off hty hoff, ?_⟩
  · unfold buildMethodList
    rw [hsplit, dictInsertAll_append, dictInsertAll_cons,
      dictLookup_dictInsertAll_of_not_mem _ _ _ hlast]
    exact dictLookup_pyDictInsert_self _ _ _
  · exact nodup_keys_dictInsertAll _ _ (nodup_keys_dictInsertAll _ _ (by simp))

/-- Witness for C5: a structure whose method at address `10` also appears in
its vftable's entry list; the surviving binding is the virtual one. -/
theorem C5_vftable_entry_overwrites_witness :
    dictLookup "0x10" (buildMethodList ⟨"A", none, [⟨"10", "m", "meth"⟩],
        some [⟨some "20", some "vfptr0", some [⟨some "10", some "vm", some "virt", some "0"⟩]⟩]⟩)
      = some ("ooa.vm", "virt_" ++ "virt" ++ "_" ++ "0") :=
  (C5_vftable_entry_overwrites
    ⟨"A", none, [⟨"10", "m", "meth"⟩],
      some [⟨some "20", some "vfptr0", some [⟨some "10", some "vm", some "virt", some "0"⟩]⟩]⟩
    "0x10" "ooa.vm" "virt" "0" [] []
    (by decide) (by decide) (by decide) (by decide) (by decide)).1

/-- C9 counterexample: the claim says that when a virtual-table entry lacks
`offset`, exactly that entry is dropped while the table's other entries are
still processed.  In this run the table has entries at `1` (complete), `2`
(no offset) and `3` (complete): the attachment for `3` is *not* emitted —
the `KeyError` aborts the whole entry loop of that table — refuting the
claim, although the run indeed raises no error. -/
theorem C9_entry_after_missing_offset_dropped :
    ooa2r2_set_classes false
        [⟨"A", none, [],
          some [⟨some "100", some "vp",
            some [⟨some "1", some "e1", some "virt", some "0"⟩,
                  ⟨some "2", some "e2", some "virt", none⟩,
                  ⟨some "3", some "e3", some "virt", some "0"⟩]⟩]⟩]
      = (["\n", "ac ooa.A\n", "acv ooa.A 0x100 vp\n", "acm ooa.A ooa.e1 0x1 0\n"], none)
    ∧ "acm ooa.A ooa.e3 0x3 0\n" ∉ (ooa2r2_set_classes false
        [⟨"A", none, [],
          some [⟨some "100", some "vp",
            some [⟨some "1", some "e1", some "virt", some "0"⟩,
                  ⟨some "2", some "e2", some "virt", none⟩,
                  ⟨some "3", some "e3", some "virt", some "0"⟩]⟩]⟩]).1 := by
  decide

/-- C9 (amended): a virtual-table entry lacking `offset` is silently dropped
*together with all remaining entries of its table* (the `KeyError` aborts
that table's entry loop); entries of the table before it, and the other
tables, are still processed, and no error is raised (the processing functions
are total and the surrounding run continues). -/
theorem C9_missing_offset_drops_rest
    (st : OOStruct) (pre post : List Vftable) (v : Vftable)
    (es1 es2 : List VEntry) (e : VEntry)
    (hvfts : st.Vftables = some (pre ++ v :: post))
    (hv : v.entries = some (es1 ++ e :: es2))
    (hcomp : ∀ x ∈ es1, x.name.isSome ∧ x.type.isSome ∧ x.offset.isSome ∧ x.ea.isSome)
    (hbad : e.offset = none) :
    processVftMethods v = processEntries es1
    ∧ entryPairs st = (pre.map processVftMethods).flatten ++ processEntries es1
        ++ (post.map processVftMethods).flatten := by
  have h1 : processEntries (es1 ++ e :: es2) = processEntries es1 := by
    rw [processEntries_append_of_complete _ _ hcomp,
      processEntries_cons_of_offset_none e es2 hbad]
    simp
  have h2 : processVftMethods v = processEntries es1 := by
    simp [processVftMethods, hv, h1]
  refine ⟨h2, ?_⟩
  simp [entryPairs, hvfts, h2, List.append_assoc]

/-- Witness for C9's amended statement, at the counterexample's table. -/
theorem C9_missing_offset_drops_rest_witness :
    processVftMethods ⟨some "100", some "vp",
        some [⟨some "1", some "e1", some "virt", some "0"⟩,
              ⟨some "2", some "e2", some "virt", none⟩,
              ⟨some "3", some "e3", some "virt", some "0"⟩]⟩
      = processEntries [⟨some "1", some "e1", some "virt", some "0"⟩] :=
  (C9_missing_offset_drops_rest
    ⟨"A", none, [],
      some [⟨some "100", some "vp",
        some [⟨some "1", some "e1", some "virt", some "0"⟩,
              ⟨some "2", some "e2", some "virt", none⟩,
              ⟨some "3", some "e3", some "virt", some "0"⟩]⟩]⟩
    [] []
    ⟨some "100", some "vp",
      some [⟨some "1", some "e1", some "virt", some "0"⟩,
            ⟨some "2", some "e2", some "virt", none⟩,
            ⟨some "3", some "e3", some "virt", some "0"⟩]⟩
    [⟨some "1", some "e1", some "virt", some "0"⟩]
    [⟨some "3", some "e3", some "virt", some "0"⟩]
    ⟨some "2", some "e2", some "virt", none⟩
    rfl rfl (by decide) rfl).1

/-- Helper for C7: whenever the class-name computation succeeds with `n`, the
structure's emitted block begins with the blank line and the class-creation
command `ac n`. -/
theorem set_classes_singleton_head (dcn : Bool) (st : OOStruct) (n : String)
    (h : pyClassName dcn st = .ok n) :
    ∃ rest, (ooa2r2_set_classes dcn [st]).1 = "\n" :: ("ac " ++ n ++ "\n") :: rest := by
  cases h2 : (exportMethodLines n (buildMethodList st)).2 with
  | none =>
    refine ⟨(buildVftableDict st).map
        (fun kv => "acv " ++ n ++ " " ++ kv.1 ++ " " ++ kv.2 ++ "\n")
      ++ (exportMethodLines n (buildMethodList st)).1 ++ [], ?_⟩
    simp [ooa2r2_set_classes, h, ooa2r2_export_class, h2]
  | some e =>
    refine ⟨(buildVftableDict st).map
        (fun kv => "acv " ++ n ++ " " ++ kv.1 ++ " " ++ kv.2 ++ "\n")
      ++ (exportMethodLines n (buildMethodList st)).1, ?_⟩
    simp [ooa2r2_set_classes, h, ooa2r2_export_class, h2]

/-- C7 counterexample: the claim says that with `-dcn` enabled a structure
without a usable demangled name still gets its sanitized canonical name.  For
a structure whose `DemangledName` key is absent, `st['DemangledName']` raises
`KeyError` before anything is emitted: no class-creation command for the
canonical name `ooa.A` appears, refuting the claim read over the document
model (in which `DemangledName` is optional). -/
theorem C7_missing_demangled_counterexample :
    ooa2r2_set_classes true [⟨"A", none, [], none⟩] = ([], some PyErr.keyError)
    ∧ ("ac " ++ format_name "A" ++ "\n")
        ∉ (ooa2r2_set_classes true [⟨"A", none, [], none⟩]).1 := by
  decide

/-- C7 (amended): the emitted class name is the sanitized canonical `Name`,
unless demangled-name mode is enabled and the structure's `DemangledName`
field is present and non-empty, in which case the sanitized demangled name is
used; with `-dcn` enabled, a structure whose `DemangledName` is present but
empty still gets its sanitized canonical name, while a structure lacking the
`DemangledName` key raises `KeyError` and gets no class name at all. -/
theorem C7_class_name_selection (st : OOStruct) :
    pyClassName false st = .ok (format_name st.Name)
    ∧ (∀ d, st.DemangledName = some d → d ≠ "" →
        pyClassName true st = .ok (format_name d))
    ∧ (st.DemangledName = some "" → pyClassName true st = .ok (format_name st.Name))
    ∧ (st.DemangledName = none → pyClassName true st = .error .keyError)
    ∧ (∀ dcn n, pyClassName dcn st = .ok n →
        ∃ rest, (ooa2r2_set_classes dcn [st]).1 = "\n" :: ("ac " ++ n ++ "\n") :: rest) := by
  refine ⟨rfl, ?_, ?_, ?_, ?_⟩
  · intro d hd hne
    have hlen : d.length ≠ 0 := by
      intro h0
      apply hne
      cases d with
      | mk l =>
        have hl : l = [] := List.length_eq_zero.1 (by simpa [String.length] using h0)
        rw [hl]
    simp [pyClassName, hd, hlen]
  · intro hd
    simp [pyClassName, hd]
  · intro hd
    simp [pyClassName, hd]
  · exact fun dcn n h => set_classes_singleton_head dcn st n h

/-- Witness for C7's amended statement: the three name-selection outcomes at
concrete structures. -/
theorem C7_class_name_selection_witness :
    pyClassName true ⟨"S", some "Foo::Bar", [], none⟩ = .ok (format_name "Foo::Bar")
    ∧ pyClassName true ⟨"S", some "", [], none⟩ = .ok (format_name "S")
    ∧ pyClassName true ⟨"S", none, [], none⟩ = .error .keyError :=
  ⟨(C7_class_name_selection ⟨"S", some "Foo::Bar", [], none⟩).2.1 "Foo::Bar" rfl (by decide),
   (C7_class_name_selection ⟨"S", some "", [], none⟩).2.2.1 rfl,
   (C7_class_name_selection ⟨"S", none, [], none⟩).2.2.2.1 rfl⟩

/-- C8 counterexample: the claim says a structure with N methods and zero
virtual tables emits exactly N method-attachment commands.  With two methods
sharing address `1` (N = 2), the dict keyed by address collapses them and
only one `acm` command is emitted. -/
theorem C8_duplicate_address_counterexample :
    ([⟨"1", "a", "meth"⟩, ⟨"1", "b", "meth"⟩] : List MEntry).length = 2
    ∧ (ooa2r2_set_classes false
        [⟨"A", none, [⟨"1", "a", "meth"⟩, ⟨"1", "b", "meth"⟩], none⟩]).2 = none
    ∧ (ooa2r2_set_classes false
        [⟨"A", none, [⟨"1", "a", "meth"⟩, ⟨"1", "b", "meth"⟩], none⟩]).1.countP
          (fun l => strStartsWith "acm " l) = 1 := by
  decide

/-- C8 (amended): for every structure with zero virtual tables whose N
methods have pairwise-distinct addresses and whose types do not contain the
substring `virt`, the emitted block contains exactly one class-creation
command (`ac `), exactly N method-attachment commands (`acm `), zero
virtual-table-attachment commands (`acv `), and no error; when method
addresses repeat, the address-keyed dict collapses them, and a method type
containing `virt` diverts into the virtual rendering branch. -/
theorem C8_block_command_counts (st : OOStruct)
    (hvft : st.Vftables = none ∨ st.Vftables = some [])
    (hnodup : ((methodPairs st.Methods).map Prod.fst).Nodup)
    (hplain : ∀ m ∈ st.Methods, strContains "virt" m.type = false) :
    (ooa2r2_set_classes false [st]).2 = none
    ∧ (ooa2r2_set_classes false [st]).1.countP (fun l => strStartsWith "ac " l) = 1
    ∧ (ooa2r2_set_classes false [st]).1.countP (fun l => strStartsWith "acm " l)
        = st.Methods.length
    ∧ (ooa2r2_set_classes false [st]).1.countP (fun l => strStartsWith "acv " l) = 0 := by
  have hep : entryPairs st = [] := by
    rcases hvft with h | h <;> simp [entryPairs, h]
  have hvd : buildVftableDict st = [] := by
    rcases hvft with h | h <;> simp [buildVftableDict, h, buildVftList]
  have hbm : buildMethodList st = methodPairs st.Methods := by
    unfold buildMethodList
    rw [hep, dictInsertAll_nil]
    exact dictInsertAll_eq_append _ _ (by simpa using hnodup)
  have hexp := exportMethodLines_plain (format_name st.Name) st.Methods hplain
  have hsc : ooa2r2_set_classes false [st]
      = ("\n" :: ("ac " ++ format_name st.Name ++ "\n") ::
          st.Methods.map (fun m =>
            "acm " ++ format_name st.Name ++ " " ++ format_name m.name ++ " "
              ++ ("0x" ++ m.ea) ++ "\n"),
          none) := by
    simp [ooa2r2_set_classes, pyClassName, ooa2r2_export_class, hbm, hvd, hexp]
  rw [hsc]
  refine ⟨rfl, ?_, ?_, ?_⟩
  · rw [List.countP_cons, List.countP_cons, List.countP_map]
    have h0 : List.countP
        ((fun l => strStartsWith "ac " l) ∘ (fun m : MEntry =>
          "acm " ++ format_name st.Name ++ " " ++ format_name m.name ++ " "
            ++ ("0x" ++ m.ea) ++ "\n")) st.Methods = 0 :=
      List.countP_eq_zero.2 (fun m _ => by
        simp [Function.comp, strStartsWith_ac_of_acm])
    simp [h0, strStartsWith_ac_of_ac, strStartsWith_ac_of_blank]
  · rw [List.countP_cons, List.countP_cons, List.countP_map]
    have h0 : List.countP
        ((fun l => strStartsWith "acm " l) ∘ (fun m : MEntry =>
          "acm " ++ format_name st.Name ++ " " ++ format_name m.name ++ " "
            ++ ("0x" ++ m.ea) ++ "\n")) st.Methods = st.Methods.length :=
      List.countP_eq_length.2 (fun m _ => by
        simp [Function.comp, strStartsWith_acm_of_acm])
    simp [h0, strStartsWith_acm_of_ac, strStartsWith_acm_of_blank]
  · rw [List.countP_cons, List.countP_cons, List.countP_map]
    have h0 : List.countP
        ((fun l => strStartsWith "acv " l) ∘ (fun m : MEntry =>
          "acm " ++ format_name st.Name ++ " " ++ format_name m.name ++ " "
            ++ ("0x" ++ m.ea) ++ "\n")) st.Methods = 0 :=
      List.countP_eq_zero.2 (fun m _ => by
        simp [Function.comp, strStartsWith_acv_of_acm])
    simp [h0, strStartsWith_acv_of_ac, strStartsWith_acv_of_blank]

/-- Witness for C8's amended statement: two methods with distinct addresses
and no vftables yield one `ac` and two `acm` commands. -/
theorem C8_block_command_counts_witness :
    (ooa2r2_set_classes false
      [⟨"A", none, [⟨"10", "m", "meth"⟩, ⟨"11", "n", "ctor"⟩], none⟩]).2 = none
    ∧ (ooa2r2_set_classes false
        [⟨"A", none, [⟨"10", "m", "meth"⟩, ⟨"11", "n", "ctor"⟩], none⟩]).1.countP
          (fun l => strStartsWith "acm " l) = 2 := by
  have h := C8_block_command_counts
    ⟨"A", none, [⟨"10", "m", "meth"⟩, ⟨"11", "n", "ctor"⟩], none⟩
    (Or.inl rfl) (by decide) (by decide)
  exact ⟨h.1, h.2.2.1⟩

/-- C6: for every input string, `format_name` returns the fixed prefix
followed by exactly the input's characters that are alphanumeric or
underscore (a filter), in order (the kept characters form a sublist of the
input), and nothing else (every kept character satisfies the predicate); it
is deterministic, total, and maps the empty string to just the prefix. -/
theorem C6_format_name_spec (s t : String) :
    format_name s = FLAG_PREFIX
        ++ String.mk (s.data.filter (fun e => e.isAlphanum || e == '_'))
    ∧ (s.data.filter (fun e => e.isAlphanum || e == '_')).Sublist s.data
    ∧ (∀ c ∈ s.data.filter (fun e => e.isAlphanum || e == '_'),
        (c.isAlphanum || c == '_') = true)
    ∧ (s = t → format_name s = format_name t)
    ∧ format_name "" = FLAG_PREFIX := by
  refine ⟨rfl, List.filter_sublist _, ?_, fun h => by rw [h], by decide⟩
  intro c hc
  simpa using List.of_mem_filter hc

/-- Witness for C6 at concrete strings. -/
theorem C6_format_name_spec_witness :
    format_name "Foo::Bar 1_x" = FLAG_PREFIX
        ++ String.mk ("Foo::Bar 1_x".data.filter (fun e => e.isAlphanum || e == '_'))
    ∧ format_name "same" = format_name "same"
    ∧ format_name "" = FLAG_PREFIX :=
  ⟨(C6_format_name_spec "Foo::Bar 1_x" "Foo::Bar 1_x").1,
   (C6_format_name_spec "same" "same").2.2.2.1 rfl,
   (C6_format_name_spec "x" "x").2.2.2.2⟩

/-- C10: the sanitizer is not injective: `Foo::Bar` and `Foo.Bar` are
distinct inputs mapped to the same flag name `ooa.FooBar`. -/
theorem C10_format_name_not_injective :
    format_name "Foo::Bar" = format_name "Foo.Bar" ∧ "Foo::Bar" ≠ "Foo.Bar" := by
  decide

/-- C1: for a valid input document lacking the `Structures` key, the claim
says a diagnostic is printed and the run completes normally.  Instead the
`except KeyError` handler's own print — `"No Structures found! "%e`, a
format string with no conversion specifier — raises `TypeError`, which
nothing catches: the run crashes (interpreter exit status 1) after having
written only the header, and prints no diagnostic and no completion
message. -/
theorem C1_missing_structures_crash :
    ooa2r2_main ⟨"in.json", "out.r2", true, false⟩ (.valid ⟨none, none⟩) true
      = { outFile := some [headerText],
          prints := ["[+] Starting conversion from \x27in.json\x27 to \x27out.r2\x27"],
          outcome := .crashed .typeError }
    ∧ exitStatus (ooa2r2_main ⟨"in.json", "out.r2", true, false⟩
        (.valid ⟨none, none⟩) true).outcome = 1 :=
  ⟨rfl, rfl⟩

/-- C3: for a valid document with no `Usages` key (or one whose first usage
group lacks `Members`), the claim says the usage step is skipped with a
diagnostic and the run completes.  Instead the handler's
`"No Usage info found! "%e` print raises `TypeError` and the run crashes,
printing neither the diagnostic nor the completion message. -/
theorem C3_missing_usage_crash :
    (ooa2r2_main ⟨"in.json", "out.r2", true, false⟩
        (.valid ⟨some [], none⟩) true).outcome = .crashed .typeError
    ∧ (ooa2r2_main ⟨"in.json", "out.r2", true, false⟩
        (.valid ⟨some [], some [⟨none⟩]⟩) true).outcome = .crashed .typeError
    ∧ (ooa2r2_main ⟨"in.json", "out.r2", true, false⟩
        (.valid ⟨some [], none⟩) true).prints
      = ["[+] Starting conversion from \x27in.json\x27 to \x27out.r2\x27"] :=
  ⟨rfl, rfl, rfl⟩

/-- C2 counterexample: the claim says a parse failure leaves a header-only
output file because the header is written before parsing.  In the code,
`json.loads` runs in `main` *before* `json_parse` opens the output file, so
for invalid JSON the output file is never created at all: `outFile` is
`none`, not a file holding exactly the header. -/
theorem C2_invalid_json_counterexample :
    (ooa2r2_main ⟨"in.json", "out.r2", true, false⟩
        (.invalid "Expecting value: line 1 column 1 (char 0)") true).outFile = none
    ∧ (ooa2r2_main ⟨"in.json", "out.r2", true, false⟩
        (.invalid "Expecting value: line 1 column 1 (char 0)") true).outFile
        ≠ some [headerText]
    ∧ (ooa2r2_main ⟨"in.json", "out.r2", true, false⟩
        (.invalid "Expecting value: line 1 column 1 (char 0)") true).prints
      = ["Invalid input json file: Expecting value: line 1 column 1 (char 0)"]
    ∧ (ooa2r2_main ⟨"in.json", "out.r2", true, false⟩
        (.invalid "Expecting value: line 1 column 1 (char 0)") true).outcome
      = .exited 0 := by
  refine ⟨rfl, by decide, rfl, rfl⟩

/-- C2 (amended): for every input that is not well-formed JSON, the process
reports the parse error and terminates explicitly; since parsing happens
before the output file is opened, the output file is never created — there
is no partially written script, and no header-only file either. -/
theorem C2_invalid_json_no_output (args : Args) (msg : String) (w : Bool)
    (h : args.json_file ≠ "") :
    ooa2r2_main args (.invalid msg) w
      = { outFile := none,
          prints := ["Invalid input json file: " ++ msg],
          outcome := .exited 0 } := by
  simp [ooa2r2_main, h]

/-- Witness for C2's amended statement. -/
theorem C2_invalid_json_no_output_witness :
    ooa2r2_main ⟨"in.json", "out.r2", true, false⟩ (.invalid "bad") true
      = { outFile := none, prints := ["Invalid input json file: " ++ "bad"],
          outcome := .exited 0 } :=
  C2_invalid_json_no_output ⟨"in.json", "out.r2", true, false⟩ "bad" true (by decide)

/-- C4 counterexample: the claim says unreadable/invalid input or an
unwritable output path makes the process exit with a *non-zero* status.  The
script answers each of these with Python's `exit()` called with no argument,
which exits with status 0. -/
theorem C4_exit_status_zero_counterexample :
    (ooa2r2_main ⟨"in.json", "out.r2", true, false⟩
        (.invalid "bad json") true).outcome = .exited 0
    ∧ exitStatus (ooa2r2_main ⟨"in.json", "out.r2", true, false⟩
        (.invalid "bad json") true).outcome = 0 :=
  ⟨rfl, rfl⟩

/-- C4 (amended): whenever the input JSON file is unreadable or invalid, or
the output path is unwritable (with readable valid input), the process
terminates explicitly via `exit()` after printing an error message — but
`exit()` with no argument yields exit status 0, not a non-zero status. -/
theorem C4_explicit_exit_zero (args : Args) (msg1 msg2 : String) (w : Bool)
    (doc : Document) (h : args.json_file ≠ "") :
    (ooa2r2_main args (.invalid msg1) w).outcome = .exited 0
    ∧ (ooa2r2_main args (.unreadable msg2) w).outcome = .exited 0
    ∧ (ooa2r2_main args (.valid doc) false).outcome = .exited 0
    ∧ exitStatus (Outcome.exited 0) = 0 := by
  refine ⟨?_, ?_, ?_, rfl⟩ <;> simp [ooa2r2_main, json_parse, h]

/-- Witness for C4's amended statement. -/
theorem C4_explicit_exit_zero_witness :
    (ooa2r2_main ⟨"a.json", "b.r2", true, false⟩ (.invalid "x") true).outcome = .exited 0
    ∧ (ooa2r2_main ⟨"a.json", "b.r2", true, false⟩
        (.valid ⟨none, none⟩) false).outcome = .exited 0 := by
  have h := C4_explicit_exit_zero ⟨"a.json", "b.r2", true, false⟩ "x" "y" true
    ⟨none, none⟩ (by decide)
  exact ⟨h.1, h.2.2.1⟩
